import Mathlib

/-!
Verification of the process supervision and command-dispatch subsystem of
`process_model.py` (rvt_model_services).

The embedding below translates the observable control flow of the script:
the command registry (`command_detection`, source lines 147-196), the main
timeout loop (source lines 310-330), the post-loop reporting (lines 332-337)
and the top-level script flow (lines 199-342).  External collaborators that
the spec explicitly excludes (model-version detection, registry lookup of
the installed executable, the contents of journal templates, console
printing) are abstracted away; file writes, process launch/kill, log rows
and post-run hooks are modelled as an event trace in program order.
-/

namespace ProcessModel

/-- Target of a process-handle operation: the originally launched handle
(`run_proc`) or the discovered first child (`child_proc`). -/
inductive PTarget
  | parent
  | child
deriving DecidableEq, Repr

/-- Observable effects of the script, in program order.
`logInfoRow c` is a `logging.info(...;c)` outcome row, `logWarnRow c` a
`logging.warning(...;c)` row; `hookQc` is `update_graphs`, `hookWarnings`
is `update_json_and_bokeh`. -/
inductive Ev
  | logHeaderWrite
  | logTaskStarted
  | writeJournal
  | writeAddin
  | launch
  | sleepTick
  | killProc (target : PTarget)
  | logInfoRow (code : Nat)
  | logWarnRow (code : Nat)
  | hookQc
  | hookWarnings
  | printModelNotFound
deriving DecidableEq, Repr

/-- Instruction fragment stored in `com_dict` by `command_detection`:
an rps button lookup result, the warnings export command (built from the
warnings dir and project code), or the literal `"' "` used for audit. -/
inductive Fragment
  | rpsButton (button : String)
  | warningsExport (projectCode : String)
  | auditQuote
deriving DecidableEq, Repr

/-- The `register` mapping exposed by a command plugin `__init__.py`
(field presence models key presence; the `name` key is assumed present,
as `command_detection` reads it unconditionally). -/
structure Register where
  name : String
  get_rps_button : Option String
  rvt_journal_writer : Option String
deriving DecidableEq, Repr

/-- One directory under the commands root: its name, whether it contains an
`__init__.py`, and the register mapping of that module (none when the
module defines no `register`). -/
structure CommandDir where
  name : String
  hasInit : Bool
  register : Option Register
deriving DecidableEq, Repr

/-- The two `exit()` paths of `command_detection`: missing `__init__.py`
in a matching directory, or no matching directory at all. -/
inductive DetectAbort
  | noInitPy
  | commandNotFound
deriving DecidableEq, Repr

/-- Python dict assignment `d[k] = v`: replace the binding of `k` when it
exists, otherwise append it. -/
def dictInsert (d : List (String × Fragment)) (k : String) (v : Fragment) :
    List (String × Fragment) :=
  match d with
  | [] => [(k, v)]
  | (k0, v0) :: rest =>
    if k0 = k then (k, v) :: rest else (k0, v0) :: dictInsert rest k v

/-- Python dict lookup `d[k]`, `none` modelling a `KeyError`. -/
def lookupDict (d : List (String × Fragment)) (k : String) : Option Fragment :=
  match d with
  | [] => none
  | (k0, v) :: rest => if k0 = k then some v else lookupDict rest k

/-- The body of `command_detection`'s per-directory register processing
(source lines 173-192): if the module has a `register` whose `name` equals
the directory name, optionally insert the rps-button fragment, then
dispatch on `rvt_journal_writer`; an unrecognized value falls through with
no insertion. -/
def registerFragments (project_code : String) (d : CommandDir)
    (acc : List (String × Fragment)) : List (String × Fragment) :=
  match d.register with
  | none => acc
  | some reg =>
    if reg.name = d.name then
      let acc1 :=
        match reg.get_rps_button with
        | some b => dictInsert acc d.name (Fragment.rpsButton b)
        | none => acc
      match reg.rvt_journal_writer with
      | some w =>
        if w = "warnings_export_command" then
          dictInsert acc1 d.name (Fragment.warningsExport project_code)
        else if w = "audit" then
          dictInsert acc1 d.name Fragment.auditQuote
        else acc1
      | none => acc1
    else acc

/-- The scan loop of `command_detection` (source lines 158-195): walk the
directories, process those whose name equals the searched command, abort
when a matching directory lacks `__init__.py`, and abort with
`commandNotFound` after the scan when no directory matched. -/
def detectGo (sc pc : String) :
    List CommandDir → List (String × Fragment) → Bool →
      Except DetectAbort (List (String × Fragment))
  | [], acc, found =>
    if found then Except.ok acc else Except.error DetectAbort.commandNotFound
  | d :: rest, acc, found =>
    if sc = d.name then
      if d.hasInit then detectGo sc pc rest (registerFragments pc d acc) true
      else Except.error DetectAbort.noInitPy
    else detectGo sc pc rest acc found

/-- `command_detection(search_command, commands_dir, ...)`
(source lines 147-196), with the commands directory modelled as the list of
its subdirectories. -/
def command_detection (sc pc : String) (dirs : List CommandDir) :
    Except DetectAbort (List (String × Fragment)) :=
  detectGo sc pc dirs [] false

/-- The events of the timeout branch (source lines 326-330): kill the child
process, then log a warning row unless the command is `warnings`. -/
def killBlock (command : String) : List Ev :=
  Ev.killProc PTarget.child ::
    (if command = "warnings" then [] else [Ev.logWarnRow 1])

/-- The main timeout loop (source lines 310-330), with `fuel + 1` remaining
iterations meaning `timeout - sec` in source terms: sleep one tick, poll the
launched parent handle at elapsed second `sec + 1`; on exit code 0 log the
success row (and run the qc hook) and break; at the last iteration, if the
poll is still `None`, kill the child and (for non-warnings commands) log a
warning row. -/
def loopAux (command : String) (procPoll : PTarget → Nat → Option Int) :
    Nat → Nat → List Ev
  | _, 0 => []
  | sec, fuel + 1 =>
    Ev.sleepTick ::
      (if procPoll PTarget.parent (sec + 1) = some 0 then
        Ev.logInfoRow 0 :: (if command = "qc" then [Ev.hookQc] else [])
      else if fuel = 0 then
        (if procPoll PTarget.parent (sec + 1) = none then killBlock command
         else [])
      else loopAux command procPoll (sec + 1) fuel)

/-- `for sec in range(timeout): ...` (source line 310). -/
def timeoutLoop (command : String) (procPoll : PTarget → Nat → Option Int)
    (timeout : Nat) : List Ev :=
  loopAux command procPoll 0 timeout

/-- Post-loop processing (source lines 332-337): for `warnings` run the
warnings hook and log a success row unconditionally; `audit` and every
other command do nothing. -/
def postLoop (command : String) : List Ev :=
  if command = "warnings" then [Ev.hookWarnings, Ev.logInfoRow 0] else []

/-- The supervision phase: the timeout loop followed by post-loop
reporting. -/
def supervise (command : String) (procPoll : PTarget → Nat → Option Int)
    (timeout : Nat) : List Ev :=
  timeoutLoop command procPoll timeout ++ postLoop command

/-- Terminal status of one script invocation: normal fall-through,
the two `exit()` aborts of `command_detection`, the `KeyError` raised by
`cmd_dict[command]` (source line 271), or the `IndexError` raised by
`run_proc.children()[0]` (source line 289). -/
inductive ScriptStatus
  | finished
  | abortedNoInit
  | abortedCommandNotFound
  | crashedKeyError
  | crashedNoChild
deriving DecidableEq, Repr

/-- Inputs of one script invocation: CLI command and project code, whether
the model file and the job-logging file exist, the contents of the commands
root, the pids of the launched process's children at discovery time, the
timeout, and the poll behaviour of the process handles (elapsed seconds to
observed exit code). -/
structure ScriptInput where
  command : String
  projectCode : String
  modelExists : Bool
  logFileExists : Bool
  commandDirs : List CommandDir
  childProcs : List Nat
  timeout : Nat
  procPoll : PTarget → Nat → Option Int

/-- Events before command resolution (source lines 234-251): seed the log
header when the file is absent, then append the `task_started` row. -/
def preEvents (inp : ScriptInput) : List Ev :=
  (if inp.logFileExists then [] else [Ev.logHeaderWrite]) ++ [Ev.logTaskStarted]

/-- The top-level script flow (source lines 199-342) as a terminal status
plus the event trace in program order: log seeding and `task_started` row,
then `command_detection`; when the model exists, the journal write (whose
argument `cmd_dict[command]` can raise first), add-in write, launch, child
discovery (`children()[0]`, raising on an empty list) and the supervision
phase; otherwise the `model not found` report. -/
def runScript (inp : ScriptInput) : ScriptStatus × List Ev :=
  match command_detection inp.command inp.projectCode inp.commandDirs with
  | Except.error DetectAbort.noInitPy =>
    (ScriptStatus.abortedNoInit, preEvents inp)
  | Except.error DetectAbort.commandNotFound =>
    (ScriptStatus.abortedCommandNotFound, preEvents inp)
  | Except.ok cmd_dict =>
    if inp.modelExists then
      match lookupDict cmd_dict inp.command with
      | none => (ScriptStatus.crashedKeyError, preEvents inp)
      | some _ =>
        match inp.childProcs with
        | [] =>
          (ScriptStatus.crashedNoChild,
            preEvents inp ++ [Ev.writeJournal, Ev.writeAddin, Ev.launch])
        | _ :: _ =>
          (ScriptStatus.finished,
            preEvents inp ++ [Ev.writeJournal, Ev.writeAddin, Ev.launch] ++
              supervise inp.command inp.procPoll inp.timeout)
    else
      (ScriptStatus.finished, preEvents inp ++ [Ev.printModelNotFound])

/-- The timeout loop sleeps at most `fuel` ticks. -/
theorem loopAux_sleep_le (command : String) (procPoll : PTarget → Nat → Option Int) :
    ∀ fuel sec, (loopAux command procPoll sec fuel).count Ev.sleepTick ≤ fuel := by
  intro fuel
  induction fuel with
  | zero => intro sec; simp [loopAux]
  | succ f ih =>
    intro sec
    simp only [loopAux]
    split_ifs with h0 hq hf hn <;>
      simp [List.count_cons, killBlock] <;>
      first
        | (split_ifs <;> simp [List.count_cons])
        | (have hih := ih (sec + 1); omega)

/-- Every event the timeout loop emits is a sleep tick, the success row,
the qc hook, the child kill, or the warning row. -/
theorem loopAux_mem (command : String) (procPoll : PTarget → Nat → Option Int) :
    ∀ fuel sec ev, ev ∈ loopAux command procPoll sec fuel →
      ev = Ev.sleepTick ∨ ev = Ev.logInfoRow 0 ∨ ev = Ev.hookQc ∨
        ev = Ev.killProc PTarget.child ∨ ev = Ev.logWarnRow 1 := by
  intro fuel
  induction fuel with
  | zero => intro sec ev h; simp [loopAux] at h
  | succ f ih =>
    intro sec ev h
    simp only [loopAux, List.mem_cons] at h
    rcases h with h | h
    · exact Or.inl h
    · split_ifs at h with h0 hq hf hn
      · simp at h; tauto
      · simp at h; tauto
      · simp only [killBlock, List.mem_cons] at h
        rcases h with h | h
        · tauto
        · split_ifs at h <;> simp at h
          tauto
      · simp at h
      · exact ih (sec + 1) ev h

/-- When no poll ever returns exit code 0, the loop is exactly `fuel`
sleep ticks followed by the kill block when the final poll is still
`None` (and the loop is nonempty). -/
theorem loopAux_no_zero (command : String) (procPoll : PTarget → Nat → Option Int)
    (h0 : ∀ n, procPoll PTarget.parent n ≠ some 0) :
    ∀ fuel sec, loopAux command procPoll sec fuel =
      List.replicate fuel Ev.sleepTick ++
        (if fuel = 0 then []
         else if procPoll PTarget.parent (sec + fuel) = none then killBlock command
         else []) := by
  intro fuel
  induction fuel with
  | zero => intro sec; simp [loopAux]
  | succ f ih =>
    intro sec
    simp only [loopAux, if_neg (h0 (sec + 1))]
    by_cases hf : f = 0
    · subst hf
      simp [List.replicate]
    · rw [if_neg hf, ih (sec + 1)]
      have harith : sec + 1 + f = sec + (f + 1) := by omega
      simp [List.replicate_succ, harith, hf]

/-- The loop consults only the parent handle: its trace is unchanged when
the child poll behaviour differs. -/
theorem loopAux_parent_eq (command : String) (p q : PTarget → Nat → Option Int)
    (h : ∀ n, p PTarget.parent n = q PTarget.parent n) :
    ∀ fuel sec, loopAux command p sec fuel = loopAux command q sec fuel := by
  intro fuel
  induction fuel with
  | zero => intro sec; rfl
  | succ f ih => intro sec; simp only [loopAux, h (sec + 1), ih (sec + 1)]

/-- The qc hook fires at most once inside the loop. -/
theorem loopAux_hookQc_le (command : String) (procPoll : PTarget → Nat → Option Int) :
    ∀ fuel sec, (loopAux command procPoll sec fuel).count Ev.hookQc ≤ 1 := by
  intro fuel
  induction fuel with
  | zero => intro sec; simp [loopAux]
  | succ f ih =>
    intro sec
    simp only [loopAux]
    split_ifs with h0 hq hf hn <;>
      simp [List.count_cons, killBlock] <;>
      first
        | (split_ifs <;> simp [List.count_cons])
        | (have hih := ih (sec + 1); omega)

/-- Every event of the supervision phase comes from the loop alphabet or
the post-loop warnings reporting. -/
theorem supervise_mem (command : String) (procPoll : PTarget → Nat → Option Int)
    (t : Nat) : ∀ ev ∈ supervise command procPoll t,
      ev = Ev.sleepTick ∨ ev = Ev.logInfoRow 0 ∨ ev = Ev.hookQc ∨
        ev = Ev.killProc PTarget.child ∨ ev = Ev.logWarnRow 1 ∨
        ev = Ev.hookWarnings := by
  intro ev h
  rcases List.mem_append.mp h with h | h
  · have := loopAux_mem command procPoll t 0 ev h
    tauto
  · revert h
    simp only [postLoop]
    split_ifs <;> simp
    tauto

/-- Keys inserted by `dictInsert` satisfy any predicate satisfied by the
existing keys and the inserted key. -/
theorem dictInsert_keys (P : String → Prop) :
    ∀ (acc : List (String × Fragment)) (k : String) (v : Fragment),
      (∀ kv ∈ acc, P kv.1) → P k → ∀ kv ∈ dictInsert acc k v, P kv.1 := by
  intro acc
  induction acc with
  | nil =>
    intro k v _ hk kv hkv
    simp [dictInsert] at hkv
    simp [hkv, hk]
  | cons hd tl ih =>
    intro k v hacc hk kv hkv
    obtain ⟨k0, v0⟩ := hd
    simp only [dictInsert] at hkv
    split_ifs at hkv with he
    · rcases List.mem_cons.mp hkv with h | h
      · simp [h, hk]
      · exact hacc kv (List.mem_cons_of_mem _ h)
    · rcases List.mem_cons.mp hkv with h | h
      · exact h ▸ hacc (k0, v0) (List.mem_cons_self _ _)
      · exact ih k v (fun x hx => hacc x (List.mem_cons_of_mem _ hx)) hk kv h

/-- Keys added while processing one directory's register are that
directory's name. -/
theorem registerFragments_keys (P : String → Prop) (pc : String) (d : CommandDir)
    (acc : List (String × Fragment)) (hacc : ∀ kv ∈ acc, P kv.1)
    (hd : P d.name) : ∀ kv ∈ registerFragments pc d acc, P kv.1 := by
  unfold registerFragments
  rcases d.register with _ | reg
  · exact hacc
  · simp only
    split_ifs with h1
    · rcases hb : reg.get_rps_button with _ | b <;>
        rcases hw : reg.rvt_journal_writer with _ | w <;>
          simp only
      · exact hacc
      · split_ifs <;> first
          | exact dictInsert_keys P acc d.name _ hacc hd
          | exact hacc
      · exact dictInsert_keys P acc d.name _ hacc hd
      · split_ifs <;> first
          | exact dictInsert_keys P _ d.name _
              (dictInsert_keys P acc d.name _ hacc hd) hd
          | exact dictInsert_keys P acc d.name _ hacc hd
    · exact hacc

/-- Every key of a dictionary built by the detection scan equals the
searched command name. -/
theorem detectGo_keys (sc pc : String) :
    ∀ (dirs : List CommandDir) (acc : List (String × Fragment)) (found : Bool)
      (dict : List (String × Fragment)),
      (∀ kv ∈ acc, kv.1 = sc) →
      detectGo sc pc dirs acc found = Except.ok dict →
      ∀ kv ∈ dict, kv.1 = sc := by
  intro dirs
  induction dirs with
  | nil =>
    intro acc found dict hacc h
    cases found <;> simp [detectGo] at h
    exact h ▸ hacc
  | cons d rest ih =>
    intro acc found dict hacc h
    simp only [detectGo] at h
    split_ifs at h with hname hinit
    · exact ih _ true dict
        (registerFragments_keys (· = sc) pc d acc hacc hname.symm) h
    · exact ih acc found dict hacc h

/-- When no directory name matches, the scan ends in the
`commandNotFound` abort. -/
theorem detectGo_not_found (sc pc : String) :
    ∀ (dirs : List CommandDir) (acc : List (String × Fragment)),
      (∀ d ∈ dirs, d.name ≠ sc) →
      detectGo sc pc dirs acc false = Except.error DetectAbort.commandNotFound := by
  intro dirs
  induction dirs with
  | nil => intro acc _; rfl
  | cons d rest ih =>
    intro acc h
    have hd : d.name ≠ sc := h d (List.mem_cons_self _ _)
    simp only [detectGo, if_neg (fun he => hd (Eq.symm he))]
    exact ih acc (fun x hx => h x (List.mem_cons_of_mem d hx))

/-- Events preceding command resolution are log-file writes only. -/
theorem preEvents_mem (inp : ScriptInput) :
    ∀ ev ∈ preEvents inp, ev = Ev.logHeaderWrite ∨ ev = Ev.logTaskStarted := by
  intro ev h
  simp only [preEvents, List.mem_append] at h
  rcases h with h | h
  · split_ifs at h <;> simp at h
    tauto
  · simp at h
    tauto

/-- C1 counterexample: with a registered qc command, an existing model, a
discovered child and a worker that never exits, `timeout = 0` makes the
loop body never run: the script returns control with no kill event in the
trace (the final four events shown are the only ones), leaving the worker
running past the deadline. -/
theorem c1_counterexample :
    runScript ⟨"qc", "prj", true, true,
        [⟨"qc", true, some ⟨"qc", some "qcbtn", none⟩⟩], [101], 0,
        fun _ _ => none⟩ =
      (ScriptStatus.finished,
        [Ev.logTaskStarted, Ev.writeJournal, Ev.writeAddin, Ev.launch]) := by
  decide

/-- C1 (amended): the polling loop sleeps at most `timeout` ticks, and for
`timeout ≥ 1`, when the worker never exits the loop sleeps exactly
`timeout` ticks and exactly one forced termination of the worker is
attempted before control returns; the `timeout = 0` edge case attempts no
termination (see the counterexample). -/
theorem c1_amended_kill_on_timeout (command : String)
    (procPoll : PTarget → Nat → Option Int) (timeout : Nat) :
    (timeoutLoop command procPoll timeout).count Ev.sleepTick ≤ timeout ∧
    (1 ≤ timeout → (∀ n, procPoll PTarget.parent n = none) →
      (timeoutLoop command procPoll timeout).count Ev.sleepTick = timeout ∧
      (supervise command procPoll timeout).count
          (Ev.killProc PTarget.child) = 1) := by
  constructor
  · exact loopAux_sleep_le command procPoll timeout 0
  · intro ht hnone
    have h0 : ∀ n, procPoll PTarget.parent n ≠ some 0 := fun n => by
      simp [hnone n]
    have hcf := loopAux_no_zero command procPoll h0 timeout 0
    rw [hnone] at hcf
    rw [if_neg (by omega : ¬ timeout = 0), if_pos rfl] at hcf
    have hloop : timeoutLoop command procPoll timeout =
        List.replicate timeout Ev.sleepTick ++ killBlock command := by
      rw [timeoutLoop, hcf]
    constructor
    · simp [hloop, List.count_append, List.count_replicate, killBlock]
      split_ifs <;> simp
    · simp only [supervise, hloop, List.count_append]
      simp [killBlock, postLoop, List.count_replicate]
      split_ifs <;> simp

/-- C2: when no directory under the commands root matches the requested
name, the registry aborts with the command-not-found exit before any
journal is composed or any process launched; and every key of a
successfully resolved command dictionary equals the requested name. -/
theorem c2_resolution_contract (inp : ScriptInput) :
    ((∀ d ∈ inp.commandDirs, d.name ≠ inp.command) →
      (runScript inp).1 = ScriptStatus.abortedCommandNotFound ∧
      Ev.writeJournal ∉ (runScript inp).2 ∧ Ev.launch ∉ (runScript inp).2) ∧
    (∀ dict,
      command_detection inp.command inp.projectCode inp.commandDirs =
        Except.ok dict →
      ∀ kv ∈ dict, kv.1 = inp.command) := by
  constructor
  · intro h
    have hdet : command_detection inp.command inp.projectCode inp.commandDirs =
        Except.error DetectAbort.commandNotFound :=
      detectGo_not_found inp.command inp.projectCode inp.commandDirs [] h
    have htr : runScript inp =
        (ScriptStatus.abortedCommandNotFound, preEvents inp) := by
      simp [runScript, hdet]
    rw [htr]
    refine ⟨rfl, ?_, ?_⟩ <;> intro hmem <;>
      rcases preEvents_mem inp _ hmem with hx | hx <;> simp at hx
  · intro dict hdict
    exact detectGo_keys inp.command inp.projectCode inp.commandDirs [] false dict
      (by simp) hdict

/-- C3 counterexample: a registered command whose `rvt_journal_writer`
value is unrecognized resolves successfully to an empty dictionary — no
InvalidPlugin failure at the registry boundary, and no fragment for the
command. -/
theorem c3_counterexample :
    command_detection "mycmd" "prj"
        [⟨"mycmd", true, some ⟨"mycmd", none, some "bogus"⟩⟩] =
      Except.ok [] := by
  rfl

/-- C3 (amended): the journal-builder dispatch recognizes exactly
`warnings_export_command` and `audit`; an unrecognized value is silently
ignored, resolution succeeds with no fragment for the command, and when
the model exists the run instead fails later with the lookup error at the
journal-composition call. -/
theorem c3_amended_unrecognized_kind (command pc w : String)
    (hw1 : w ≠ "warnings_export_command") (hw2 : w ≠ "audit") :
    command_detection command pc
        [⟨command, true, some ⟨command, none, some "warnings_export_command"⟩⟩] =
      Except.ok [(command, Fragment.warningsExport pc)] ∧
    command_detection command pc
        [⟨command, true, some ⟨command, none, some "audit"⟩⟩] =
      Except.ok [(command, Fragment.auditQuote)] ∧
    command_detection command pc
        [⟨command, true, some ⟨command, none, some w⟩⟩] =
      Except.ok [] ∧
    (∀ (lE : Bool) (cp : List Nat) (t : Nat)
      (pp : PTarget → Nat → Option Int),
      (runScript ⟨command, pc, true, lE,
          [⟨command, true, some ⟨command, none, some w⟩⟩], cp, t, pp⟩).1 =
        ScriptStatus.crashedKeyError) := by
  refine ⟨?_, ?_, ?_, ?_⟩
  · simp [command_detection, detectGo, registerFragments, dictInsert]
  · simp [command_detection, detectGo, registerFragments, dictInsert]
  · simp [command_detection, detectGo, registerFragments, dictInsert, hw1, hw2]
  · intro lE cp t pp
    simp [runScript, command_detection, detectGo, registerFragments,
      lookupDict, hw1, hw2]

/-- C4 counterexample: with a registered command and an existing model,
zero children at discovery time crash the run (the `children()[0]`
IndexError), contradicting the claim that the absence of a child never
causes the run to fail. -/
theorem c4_counterexample :
    (runScript ⟨"qc", "prj", true, true,
        [⟨"qc", true, some ⟨"qc", some "qcbtn", none⟩⟩], [], 5,
        fun _ _ => none⟩).1 = ScriptStatus.crashedNoChild := by
  decide

/-- C4 (amended): at the child-discovery point, zero children crash the
run with the unhandled IndexError of `children()[0]`; supervision reaches
the polling phase only when at least one child exists. -/
theorem c4_amended_no_child_crash (inp : ScriptInput)
    (dict : List (String × Fragment)) (frag : Fragment)
    (hok : command_detection inp.command inp.projectCode inp.commandDirs =
      Except.ok dict)
    (hlook : lookupDict dict inp.command = some frag)
    (hM : inp.modelExists = true) :
    (inp.childProcs = [] → (runScript inp).1 = ScriptStatus.crashedNoChild) ∧
    (inp.childProcs ≠ [] → (runScript inp).1 = ScriptStatus.finished) := by
  constructor <;> intro hc
  · simp [runScript, hok, hM, hlook, hc]
  · rcases hcp : inp.childProcs with _ | ⟨c, cs⟩
    · exact absurd hcp hc
    · simp [runScript, hok, hM, hlook, hcp]

/-- C5 counterexample: in a run whose worker never exits (timeout 1), the
timeout kill in the trace targets the discovered child process, not the
originally launched handle. -/
theorem c5_counterexample :
    (supervise "qc" (fun _ _ => none) 1).count (Ev.killProc PTarget.child) = 1 ∧
    (supervise "qc" (fun _ _ => none) 1).count (Ev.killProc PTarget.parent) = 0 := by
  decide

/-- C5 (amended): polling targets the originally launched handle — the
supervision trace is unchanged by any difference in child poll behaviour —
while every kill event in the trace targets the discovered child worker. -/
theorem c5_amended_poll_parent_kill_child (command : String)
    (p q : PTarget → Nat → Option Int) (timeout : Nat)
    (hagree : ∀ n, p PTarget.parent n = q PTarget.parent n) :
    supervise command p timeout = supervise command q timeout ∧
    (∀ tgt, Ev.killProc tgt ∈ supervise command p timeout →
      tgt = PTarget.child) := by
  constructor
  · simp [supervise, timeoutLoop,
      loopAux_parent_eq command p q hagree timeout 0]
  · intro tgt h
    rcases supervise_mem command p timeout _ h with h | h | h | h | h | h <;>
      simp_all

/-- C6: provided command resolution succeeds, the model-not-found report
appears in the trace exactly when the target model file does not exist at
invocation time, and in that case no journal or add-in artifact is
written, no external process is launched, and no post-run hook is
invoked. -/
theorem c6_model_not_found_iff (inp : ScriptInput)
    (dict : List (String × Fragment))
    (hok : command_detection inp.command inp.projectCode inp.commandDirs =
      Except.ok dict) :
    (Ev.printModelNotFound ∈ (runScript inp).2 ↔ inp.modelExists = false) ∧
    (inp.modelExists = false →
      Ev.writeJournal ∉ (runScript inp).2 ∧ Ev.writeAddin ∉ (runScript inp).2 ∧
      Ev.launch ∉ (runScript inp).2 ∧ Ev.hookQc ∉ (runScript inp).2 ∧
      Ev.hookWarnings ∉ (runScript inp).2) := by
  cases hM : inp.modelExists
  · have htr : runScript inp =
        (ScriptStatus.finished, preEvents inp ++ [Ev.printModelNotFound]) := by
      simp [runScript, hok, hM]
    rw [htr]
    constructor
    · simp
    · intro _
      refine ⟨?_, ?_, ?_, ?_, ?_⟩ <;> intro hmem <;>
        rcases List.mem_append.mp hmem with h | h <;>
          first
            | (rcases preEvents_mem inp _ h with hx | hx <;> simp at hx)
            | simp at h
  · have hnm : Ev.printModelNotFound ∉ (runScript inp).2 := by
      rcases hl : lookupDict dict inp.command with _ | frag
      · have htr : runScript inp =
            (ScriptStatus.crashedKeyError, preEvents inp) := by
          simp [runScript, hok, hM, hl]
        rw [htr]
        intro hmem
        rcases preEvents_mem inp _ hmem with hx | hx <;> simp at hx
      · rcases hcp : inp.childProcs with _ | ⟨c, cs⟩
        · have htr : runScript inp = (ScriptStatus.crashedNoChild,
              preEvents inp ++ [Ev.writeJournal, Ev.writeAddin, Ev.launch]) := by
            simp [runScript, hok, hM, hl, hcp]
          rw [htr]
          intro hmem
          rcases List.mem_append.mp hmem with h | h
          · rcases preEvents_mem inp _ h with hx | hx <;> simp at hx
          · simp at h
        · have htr : runScript inp = (ScriptStatus.finished,
              preEvents inp ++ [Ev.writeJournal, Ev.writeAddin, Ev.launch] ++
                supervise inp.command inp.procPoll inp.timeout) := by
            simp [runScript, hok, hM, hl, hcp]
          rw [htr]
          intro hmem
          rcases List.mem_append.mp hmem with h | h
          · rcases List.mem_append.mp h with h | h
            · rcases preEvents_mem inp _ h with hx | hx <;> simp at hx
            · simp at h
          · rcases supervise_mem _ _ _ _ h with hx | hx | hx | hx | hx | hx <;>
              simp at hx
    constructor
    · constructor
      · intro hmem
        exact absurd hmem hnm
      · intro hfalse
        simp at hfalse
    · intro hfalse
      simp at hfalse

/-- C7 counterexample: a warnings-command run whose worker completes with
exit code 0 appends the success outcome row twice — once in the loop's
completion branch, once in the unconditional post-loop warnings reporting
— rather than reporting the outcome exactly once. -/
theorem c7_counterexample :
    (supervise "warnings" (fun _ _ => some 0) 5).count (Ev.logInfoRow 0) = 2 ∧
    (supervise "warnings" (fun _ _ => some 0) 5).count Ev.hookWarnings = 1 := by
  decide

/-- C7 (amended): each post-run hook is invoked at most once, the warnings
hook fires only after the polling loop has ended, but a warnings-command
run that completes with exit code 0 appends the success log row twice (one
report from the completion branch, one from the post-loop warnings
reporting). -/
theorem c7_amended_single_hook_double_row (command : String)
    (procPoll : PTarget → Nat → Option Int) (timeout : Nat) :
    (supervise command procPoll timeout).count Ev.hookQc ≤ 1 ∧
    (supervise command procPoll timeout).count Ev.hookWarnings ≤ 1 ∧
    Ev.hookWarnings ∉ timeoutLoop command procPoll timeout ∧
    (command = "warnings" → 1 ≤ timeout →
      (∀ n, procPoll PTarget.parent n = some 0) →
      (supervise command procPoll timeout).count (Ev.logInfoRow 0) = 2) := by
  have hmemW : Ev.hookWarnings ∉ timeoutLoop command procPoll timeout := by
    intro h
    rcases loopAux_mem command procPoll timeout 0 _ h with h | h | h | h | h <;>
      simp at h
  refine ⟨?_, ?_, hmemW, ?_⟩
  · simp only [supervise, List.count_append]
    have h1 := loopAux_hookQc_le command procPoll timeout 0
    have h2 : (postLoop command).count Ev.hookQc = 0 := by
      simp [postLoop]
      split_ifs <;> simp
    simp only [timeoutLoop] at *
    omega
  · simp only [supervise, List.count_append]
    have h1 : (timeoutLoop command procPoll timeout).count Ev.hookWarnings = 0 :=
      List.count_eq_zero.mpr hmemW
    have h2 : (postLoop command).count Ev.hookWarnings ≤ 1 := by
      simp [postLoop]
      split_ifs <;> simp
    omega
  · intro hw ht hp
    subst hw
    rcases timeout with _ | f
    · omega
    · have hloop : timeoutLoop "warnings" procPoll (f + 1) =
          [Ev.sleepTick, Ev.logInfoRow 0] := by
        simp [timeoutLoop, loopAux, hp 1]
      simp [supervise, hloop, postLoop, List.count_append, List.count_cons]

/-- C8 counterexample: a warnings run whose worker never exits within
timeout 5 appends zero warning-level rows (the timeout branch skips the
warning log for the warnings command) — not the one row the claim
requires — while killing the child once and appending one success row
from the post-loop reporting. -/
theorem c8_counterexample :
    (supervise "warnings" (fun _ _ => none) 5).count (Ev.logWarnRow 1) = 0 ∧
    (supervise "warnings" (fun _ _ => none) 5).count
        (Ev.killProc PTarget.child) = 1 ∧
    (supervise "warnings" (fun _ _ => none) 5).count Ev.hookWarnings = 1 ∧
    (supervise "warnings" (fun _ _ => none) 5).count (Ev.logInfoRow 0) = 1 := by
  decide

/-- C8 (amended): for a warnings-command run whose worker never exits
within a positive timeout, the worker is killed once, the warnings-export
hook is invoked exactly once despite the timeout, and exactly one
success-level (info, code 0) row is appended — no warning-level row is
recorded for the warnings command. -/
theorem c8_amended_warnings_timeout (procPoll : PTarget → Nat → Option Int)
    (timeout : Nat) (ht : 1 ≤ timeout)
    (hnever : ∀ n, procPoll PTarget.parent n = none) :
    (supervise "warnings" procPoll timeout).count
        (Ev.killProc PTarget.child) = 1 ∧
    (supervise "warnings" procPoll timeout).count Ev.hookWarnings = 1 ∧
    (supervise "warnings" procPoll timeout).count (Ev.logInfoRow 0) = 1 ∧
    (∀ c, Ev.logWarnRow c ∉ supervise "warnings" procPoll timeout) := by
  have h0 : ∀ n, procPoll PTarget.parent n ≠ some 0 := fun n => by
    simp [hnever n]
  have hcf := loopAux_no_zero "warnings" procPoll h0 timeout 0
  rw [hnever] at hcf
  rw [if_neg (by omega : ¬ timeout = 0), if_pos rfl] at hcf
  have hsup : supervise "warnings" procPoll timeout =
      List.replicate timeout Ev.sleepTick ++
        [Ev.killProc PTarget.child, Ev.hookWarnings, Ev.logInfoRow 0] := by
    simp [supervise, timeoutLoop, hcf, killBlock, postLoop]
  rw [hsup]
  refine ⟨?_, ?_, ?_, ?_⟩
  · simp [List.count_append, List.count_replicate, List.count_cons]
  · simp [List.count_append, List.count_replicate, List.count_cons]
  · simp [List.count_append, List.count_replicate, List.count_cons]
  · intro c hmem
    rcases List.mem_append.mp hmem with h | h
    · have := (List.mem_replicate.mp h).2
      simp at this
    · simp at h

/-- C9 counterexample: with an unregistered command and an absent log
file, the log header write and the task-started row — file I/O to the
logs directory — occur before resolution fails, contradicting "resolution
fails before any file I/O occurs". -/
theorem c9_counterexample :
    runScript ⟨"unknown_cmd", "prj", true, false,
        [⟨"qc", true, some ⟨"qc", some "qcbtn", none⟩⟩], [101], 3,
        fun _ _ => none⟩ =
      (ScriptStatus.abortedCommandNotFound,
        [Ev.logHeaderWrite, Ev.logTaskStarted]) := by
  decide

/-- C9 (amended): when the requested command is not registered, the run
aborts with the command-not-found exit and performs no journal-directory
I/O — no journal write, no add-in write, no launch — though structured-log
writes may precede resolution. -/
theorem c9_amended_no_journal_io (inp : ScriptInput)
    (h : ∀ d ∈ inp.commandDirs, d.name ≠ inp.command) :
    (runScript inp).1 = ScriptStatus.abortedCommandNotFound ∧
    Ev.writeJournal ∉ (runScript inp).2 ∧ Ev.writeAddin ∉ (runScript inp).2 ∧
    Ev.launch ∉ (runScript inp).2 := by
  have hdet : command_detection inp.command inp.projectCode inp.commandDirs =
      Except.error DetectAbort.commandNotFound :=
    detectGo_not_found inp.command inp.projectCode inp.commandDirs [] h
  have htr : runScript inp =
      (ScriptStatus.abortedCommandNotFound, preEvents inp) := by
    simp [runScript, hdet]
  rw [htr]
  refine ⟨rfl, ?_, ?_, ?_⟩ <;> intro hmem <;>
    rcases preEvents_mem inp _ hmem with hx | hx <;> simp at hx

/-- C10: when the launched process exits with a non-zero, non-null code
before the deadline, the polling loop runs all `timeout` ticks, attempts
no kill, appends no outcome log row, and for non-warnings commands
invokes no post-run hook: the run ends with no outcome report at all. -/
theorem c10_nonzero_exit_silent (command : String)
    (procPoll : PTarget → Nat → Option Int) (texit timeout : Nat) (c : Int)
    (hc : c ≠ 0) (hexit : texit ≤ timeout)
    (hpoll : ∀ n, procPoll PTarget.parent n =
      if n < texit then none else some c)
    (hcmd : command ≠ "warnings") :
    (timeoutLoop command procPoll timeout).count Ev.sleepTick = timeout ∧
    (∀ tgt, Ev.killProc tgt ∉ supervise command procPoll timeout) ∧
    (∀ k, Ev.logInfoRow k ∉ supervise command procPoll timeout) ∧
    (∀ k, Ev.logWarnRow k ∉ supervise command procPoll timeout) ∧
    Ev.hookQc ∉ supervise command procPoll timeout ∧
    Ev.hookWarnings ∉ supervise command procPoll timeout := by
  have h0 : ∀ n, procPoll PTarget.parent n ≠ some 0 := by
    intro n
    rw [hpoll n]
    split_ifs <;> simp [hc]
  have hloop : timeoutLoop command procPoll timeout =
      List.replicate timeout Ev.sleepTick := by
    rw [timeoutLoop, loopAux_no_zero command procPoll h0 timeout 0]
    rcases Nat.eq_zero_or_pos timeout with hz | hz
    · simp [hz]
    · rw [if_neg (by omega : ¬ timeout = 0), hpoll,
        if_neg (by omega : ¬ 0 + timeout < texit)]
      simp
  have hsup : supervise command procPoll timeout =
      List.replicate timeout Ev.sleepTick := by
    simp [supervise, hloop, postLoop, hcmd]
  refine ⟨?_, ?_, ?_, ?_, ?_, ?_⟩ <;>
    simp [hloop, hsup, List.count_replicate, List.mem_replicate]

/-- Witness for C1: with timeout 3 and a worker that never exits, the
loop sleeps exactly 3 ticks and kills the worker exactly once. -/
theorem c1_witness :
    (timeoutLoop "qc" (fun _ _ => none) 3).count Ev.sleepTick = 3 ∧
    (supervise "qc" (fun _ _ => none) 3).count (Ev.killProc PTarget.child) = 1 := by
  exact (c1_amended_kill_on_timeout "qc" (fun _ _ => none) 3).2 (by omega)
    (fun n => rfl)

/-- Witness for C2: a concrete unregistered command aborts with the
command-not-found exit and writes no journal. -/
theorem c2_witness :
    (runScript ⟨"unknown_cmd", "prj", true, true,
        [⟨"qc", true, some ⟨"qc", some "qcbtn", none⟩⟩], [101], 3,
        fun _ _ => none⟩).1 = ScriptStatus.abortedCommandNotFound ∧
    Ev.writeJournal ∉ (runScript ⟨"unknown_cmd", "prj", true, true,
        [⟨"qc", true, some ⟨"qc", some "qcbtn", none⟩⟩], [101], 3,
        fun _ _ => none⟩).2 := by
  have h := (c2_resolution_contract ⟨"unknown_cmd", "prj", true, true,
      [⟨"qc", true, some ⟨"qc", some "qcbtn", none⟩⟩], [101], 3,
      fun _ _ => none⟩).1 (by decide)
  exact ⟨h.1, h.2.1⟩

/-- Witness for C3: at the unrecognized kind `"bogus"`, resolution
succeeds with no fragment, and an existing model leads to the lookup
crash. -/
theorem c3_witness :
    command_detection "mycmd" "prj2"
        [⟨"mycmd", true, some ⟨"mycmd", none, some "bogus"⟩⟩] =
      Except.ok [] ∧
    (runScript ⟨"mycmd", "prj2", true, true,
        [⟨"mycmd", true, some ⟨"mycmd", none, some "bogus"⟩⟩], [101], 3,
        fun _ _ => none⟩).1 = ScriptStatus.crashedKeyError := by
  have h := c3_amended_unrecognized_kind "mycmd" "prj2" "bogus"
    (by decide) (by decide)
  exact ⟨h.2.2.1, h.2.2.2 true [101] 3 (fun _ _ => none)⟩

/-- Witness for C4: the same configured run crashes with zero children
and finishes with one child. -/
theorem c4_witness :
    (runScript ⟨"qc", "prj", true, true,
        [⟨"qc", true, some ⟨"qc", some "qcbtn", none⟩⟩], [7], 2,
        fun _ _ => none⟩).1 = ScriptStatus.finished := by
  have h := c4_amended_no_child_crash ⟨"qc", "prj", true, true,
      [⟨"qc", true, some ⟨"qc", some "qcbtn", none⟩⟩], [7], 2,
      fun _ _ => none⟩
    [("qc", Fragment.rpsButton "qcbtn")] (Fragment.rpsButton "qcbtn")
    rfl rfl rfl
  exact h.2 (by simp)

/-- Witness for C5: two poll behaviours agreeing on the parent handle
yield identical supervision traces. -/
theorem c5_witness :
    supervise "qc" (fun _ _ => none) 2 =
      supervise "qc"
        (fun t _ => if t = PTarget.parent then none else some 7) 2 := by
  exact (c5_amended_poll_parent_kill_child "qc" (fun _ _ => none)
    (fun t _ => if t = PTarget.parent then none else some 7) 2
    (fun n => by simp)).1

/-- Witness for C6: with a registered command and a missing model, the
model-not-found report appears in the trace. -/
theorem c6_witness :
    Ev.printModelNotFound ∈ (runScript ⟨"qc", "prj", false, true,
        [⟨"qc", true, some ⟨"qc", some "qcbtn", none⟩⟩], [101], 3,
        fun _ _ => none⟩).2 := by
  have h := c6_model_not_found_iff ⟨"qc", "prj", false, true,
      [⟨"qc", true, some ⟨"qc", some "qcbtn", none⟩⟩], [101], 3,
      fun _ _ => none⟩
    [("qc", Fragment.rpsButton "qcbtn")] rfl
  exact h.1.mpr rfl

/-- Witness for C7: a concrete warnings run completing with exit code 0
appends the success row twice while the hook fires at most once. -/
theorem c7_witness :
    (supervise "warnings" (fun _ _ => some 0) 3).count (Ev.logInfoRow 0) = 2 ∧
    (supervise "warnings" (fun _ _ => some 0) 3).count Ev.hookWarnings ≤ 1 := by
  have h := c7_amended_single_hook_double_row "warnings" (fun _ _ => some 0) 3
  exact ⟨h.2.2.2 rfl (by omega) (fun n => rfl), h.2.1⟩

/-- Witness for C8: a concrete warnings timeout run kills once, hooks
once, logs one success row and no warning row of code 1. -/
theorem c8_witness :
    (supervise "warnings" (fun _ _ => none) 3).count
        (Ev.killProc PTarget.child) = 1 ∧
    (supervise "warnings" (fun _ _ => none) 3).count Ev.hookWarnings = 1 ∧
    Ev.logWarnRow 1 ∉ supervise "warnings" (fun _ _ => none) 3 := by
  have h := c8_amended_warnings_timeout (fun _ _ => none) 3 (by omega)
    (fun n => rfl)
  exact ⟨h.1, h.2.1, h.2.2.2 1⟩

/-- Witness for C9: a concrete unregistered command aborts with no
journal-directory I/O in the trace. -/
theorem c9_witness :
    (runScript ⟨"nosuchcmd", "prj", true, false,
        [⟨"warnings", true,
          some ⟨"warnings", none, some "warnings_export_command"⟩⟩], [101], 3,
        fun _ _ => none⟩).1 = ScriptStatus.abortedCommandNotFound ∧
    Ev.writeAddin ∉ (runScript ⟨"nosuchcmd", "prj", true, false,
        [⟨"warnings", true,
          some ⟨"warnings", none, some "warnings_export_command"⟩⟩], [101], 3,
        fun _ _ => none⟩).2 := by
  have h := c9_amended_no_journal_io ⟨"nosuchcmd", "prj", true, false,
      [⟨"warnings", true,
        some ⟨"warnings", none, some "warnings_export_command"⟩⟩], [101], 3,
      fun _ _ => none⟩ (by decide)
  exact ⟨h.1, h.2.2.1⟩

/-- Witness for C10: a worker exiting with code 1 at tick 2 of timeout 4
leaves a qc run with all 4 sleep ticks and no kill, no outcome row, no
hook. -/
theorem c10_witness :
    (timeoutLoop "qc" (fun _ n => if n < 2 then none else some 1) 4).count
        Ev.sleepTick = 4 ∧
    Ev.hookQc ∉ supervise "qc" (fun _ n => if n < 2 then none else some 1) 4 ∧
    Ev.killProc PTarget.child ∉
      supervise "qc" (fun _ n => if n < 2 then none else some 1) 4 := by
  have h := c10_nonzero_exit_silent "qc"
    (fun _ n => if n < 2 then none else some 1) 2 4 1
    (by omega) (by omega) (fun n => rfl) (by decide)
  exact ⟨h.1, h.2.2.2.2.1, h.2.1 PTarget.child⟩

end ProcessModel
